import Mathlib

/-!
# Verification of the `vscode-shortcuts-buddy` recommendation engine

A shallow embedding of the extension's core components:

* `src/shortcuts-loader.ts` — CSV catalog loading (`load`, `parseCSVLine`);
* `src/learned-shortcuts-manager.ts` — the durable learned ledger
  (`getShortcutId`, `isLearned`, `markAsLearned`, `clearAll`,
  `getLearnedShortcutsDetails`);
* `src/analyzer.ts` — the recommendation decision engine
  (`analyzeInteraction`, the per-type context filters,
  `selectBestShortcut`, `selectRandomShortcut`, `showRecommendation`).

JavaScript strings are modelled as `List Char`.  Absent / `undefined`
optional values are modelled with `Option` (and JS truthiness of absent
boolean flags as `false`).  `Math.random()` is modelled by an injected
rational draw `r` with `0 ≤ r < 1`, and `Date.now()` by an injected
integer `now`.  Side effects of one `analyzeInteraction` call are
recorded as an ordered trace of primitive `Action`s.
-/

namespace ShortcutsBuddy

/-- Convert a string literal to the `List Char` model of JS strings. -/
def str (s : String) : List Char := s.data

/-- JS `String.prototype.trim()`: drop whitespace from both ends. -/
def trim (l : List Char) : List Char :=
  ((l.dropWhile Char.isWhitespace).reverse.dropWhile Char.isWhitespace).reverse

/-- Does `l` start with `pat`?  (helper for the substring test) -/
def startsList : List Char → List Char → Bool
  | _, [] => true
  | [], _ :: _ => false
  | a :: as, b :: bs => a = b && startsList as bs

/-- JS `haystack.includes(pat)`: does `pat` occur contiguously in `l`? -/
def containsSub : List Char → List Char → Bool
  | l, pat =>
    startsList l pat ||
      match l with
      | [] => false
      | _ :: rest => containsSub rest pat

/-- Does `l` end with `pat`?  (JS `String.prototype.endsWith`) -/
def endsList (l pat : List Char) : Bool := startsList l.reverse pat.reverse

/-- JS `String.prototype.toLowerCase` (per-character model). -/
def lowerList (l : List Char) : List Char := l.map Char.toLower

/-- JS `String.prototype.split(c)`: split on a character, keeping empty
pieces; always returns at least one piece. -/
def splitOnChar (c : Char) : List Char → List (List Char)
  | [] => [[]]
  | x :: xs =>
    if x = c then [] :: splitOnChar c xs
    else
      match splitOnChar c xs with
      | [] => [[x]]
      | p :: ps => (x :: p) :: ps

/-! ## Catalog loader (`src/shortcuts-loader.ts`) -/

/-- One row of the shortcuts catalog (`interface Shortcut`). -/
structure Shortcut where
  shortcut : List Char
  action : List Char
  interactionType : List Char
  implemented : Bool
  deriving DecidableEq, Repr

/-- The character loop of `parseCSVLine`: state is the remaining
characters, the current field being accumulated, the `inQuotes` flag and
the fields pushed so far.  A `"` toggles `inQuotes`; a `,` outside
quotes pushes the trimmed current field; any other character is appended
to the current field.  At the end the trimmed current field is pushed. -/
def parseFieldsLoop : List Char → List Char → Bool → List (List Char) → List (List Char)
  | [], cur, _, fields => fields ++ [trim cur]
  | ch :: rest, cur, inQuotes, fields =>
    if ch = '"' then
      parseFieldsLoop rest cur (!inQuotes) fields
    else if ch = ',' && !inQuotes then
      parseFieldsLoop rest [] inQuotes (fields ++ [trim cur])
    else
      parseFieldsLoop rest (cur ++ [ch]) inQuotes fields

/-- `ShortcutsLoader.parseCSVLine`: parse the fields of one line; return
`none` (the source returns `null`) when fewer than 4 fields were parsed,
otherwise build the record from the first four fields. -/
def parseCSVLine (line : List Char) : Option Shortcut :=
  let fields := parseFieldsLoop line [] false []
  if h : fields.length < 4 then none
  else
    some
      { interactionType := fields.get ⟨0, by omega⟩
        implemented := lowerList (fields.get ⟨1, by omega⟩) = str "true"
        shortcut := fields.get ⟨2, by omega⟩
        action := fields.get ⟨3, by omega⟩ }

/-- The loop body of `ShortcutsLoader.load` over the non-header lines:
trim each line, skip it if empty, otherwise parse it and keep the
parsed record when parsing succeeds. -/
def loadLines : List (List Char) → List Shortcut
  | [] => []
  | l :: rest =>
    let line := trim l
    if line = [] then loadLines rest
    else
      match parseCSVLine line with
      | none => loadLines rest
      | some s => s :: loadLines rest

/-- `ShortcutsLoader.load`: split the file content on `'\n'`, skip the
header line (the loop starts at index 1), then process each line. -/
def load (content : List Char) : List Shortcut :=
  loadLines ((splitOnChar '\n' content).drop 1)

/-! ### Spec-side formulation of the loader

The external-interface section of the specification describes the
catalog source format declaratively.  The following definitions are
written from those words (quotes toggle an in-field quoted state, a
comma inside quotes is not a delimiter, fields are trimmed, a row with
fewer than four fields is skipped, empty-after-trim lines are skipped,
the first line is a header) to be compared with the source embedding. -/

/-- Push a character onto the front of the first (current) field. -/
def consHead (c : Char) : List (List Char) → List (List Char)
  | [] => [[c]]
  | f :: fs => (c :: f) :: fs

/-- Spec-side field splitter: scan the line with a `quoted` state; a
quote character toggles the state and is dropped; a comma outside
quotes starts a new field; every other character belongs to the current
field. -/
def specRawFields : List Char → Bool → List (List Char)
  | [], _ => [[]]
  | c :: cs, quoted =>
    if c = '"' then specRawFields cs (!quoted)
    else if c = ',' && !quoted then [] :: specRawFields cs quoted
    else consHead c (specRawFields cs quoted)

/-- Spec-side parsed fields of a row: the raw fields, each trimmed. -/
def specFields (line : List Char) : List (List Char) :=
  (specRawFields line false).map trim

/-- Prepend a pending field prefix onto the first raw field (relates the
accumulator of `parseFieldsLoop` to `specRawFields`). -/
def prependCur (cur : List Char) : List (List Char) → List (List Char)
  | [] => [cur]
  | f :: fs => (cur ++ f) :: fs

/-- Spec-side row parse: columns in order `interactionType`,
`implemented` (case-insensitively `"true"`), `shortcutKeys`,
`actionDescription`; a row with fewer than 4 fields is skipped. -/
def parseLineSpec (line : List Char) : Option Shortcut :=
  match specFields line with
  | f0 :: f1 :: f2 :: f3 :: _ =>
    some
      { interactionType := f0
        implemented := lowerList f1 = str "true"
        shortcut := f2
        action := f3 }
  | _ => none

/-- Spec-side load: skip the header line, trim every remaining line,
skip the ones that are empty after trimming, parse the rest. -/
def loadSpec (content : List Char) : List Shortcut :=
  ((((splitOnChar '\n' content).drop 1).map trim).filter (· ≠ [])).filterMap
    parseLineSpec

/-! ## Learned ledger (`src/learned-shortcuts-manager.ts`)

The durable slot (`globalState` under the key `learnedShortcuts`) is
modelled as `Option (List (List Char))`: `none` when the key was never
written, `some` the stored array otherwise.  `globalState.get(KEY, [])`
supplies the default `[]`.  The in-memory JS `Set` (insertion-ordered,
duplicate-free) is modelled as a duplicate-free list with
membership-checked append. -/

/-- JS `Set.prototype.add`: append the element when absent, no-op when
present. -/
def setAdd (l : List (List Char)) (x : List Char) : List (List Char) :=
  if x ∈ l then l else l ++ [x]

/-- In-memory state of `LearnedShortcutsManager`: the `learnedShortcuts`
set in insertion order. -/
structure Manager where
  learned : List (List Char)
  deriving DecidableEq, Repr

/-- `getShortcutId`: the composite identity `` `${shortcut}|${action}` ``. -/
def getShortcutId (shortcut action : List Char) : List Char :=
  shortcut ++ '|' :: action

/-- The constructor: load the stored array (default `[]`) and build the
set from it (`new Set(stored)` keeps first occurrences). -/
def newManager (slot : Option (List (List Char))) : Manager :=
  ⟨(slot.getD []).foldl setAdd []⟩

/-- `isLearned`: membership of the composite identity in the set. -/
def isLearned (m : Manager) (shortcut action : List Char) : Bool :=
  decide (getShortcutId shortcut action ∈ m.learned)

/-- `markAsLearned`: add the identity to the set, then persist the whole
set to the slot (`save` writes `Array.from(set)`).  Returns the new
in-memory state and the new slot content. -/
def markAsLearned (m : Manager) (shortcut action : List Char) :
    Manager × Option (List (List Char)) :=
  let learned := setAdd m.learned (getShortcutId shortcut action)
  (⟨learned⟩, some learned)

/-- `unlearn`: remove the identity (no-op when absent), then persist. -/
def unlearn (m : Manager) (shortcut action : List Char) :
    Manager × Option (List (List Char)) :=
  let learned := m.learned.filter (· ≠ getShortcutId shortcut action)
  (⟨learned⟩, some learned)

/-- `clearAll`: empty the set, then persist. -/
def clearAll (_m : Manager) : Manager × Option (List (List Char)) :=
  (⟨[]⟩, some [])

/-- The decomposition used by `getLearnedShortcutsDetails`:
`id.split('|')` destructured as `[shortcut, action]`, i.e. the first two
pieces (an absent second piece is modelled by the default `[]`). -/
def decodeId (id : List Char) : List Char × List Char :=
  let parts := splitOnChar '|' id
  (parts.getD 0 [], parts.getD 1 [])

/-- `getLearnedShortcutsDetails`: decompose every stored identity. -/
def getLearnedShortcutsDetails (m : Manager) : List (List Char × List Char) :=
  m.learned.map decodeId

/-! ## Recommendation engine (`src/analyzer.ts`)

Interaction events (`src/tracker.ts`) carry a type tag and an optional
context object.  Only the context fields the analyzer reads are
modelled; an absent field is `none` (for object/string/number-valued
fields, where JS `undefined` fails the truthiness / comparison tests)
or `false` (for boolean flags, where JS `undefined` is falsy). -/

/-- The closed set of interaction kinds (`InteractionType` in
`src/tracker.ts`, plus the synthetic `tipOfTheDay` event fired by
`src/extension.ts`, which the analyzer's `switch` handles through its
`default` branch). -/
inductive InteractionType where
  | activeEditorChange
  | textChange
  | selectionChange
  | fileSave
  | documentClose
  | activeTerminalChange
  | windowStateChange
  | commandExecution
  | panelVisibilityChange
  | intelliSenseTrigger
  | peekDefinitionTrigger
  | quickFixTrigger
  | referencesTrigger
  | debugStart
  | debugStop
  | tipOfTheDay
  deriving DecidableEq, Repr

/-- The context payload fields read by the analyzer.  Presence of the
objects `editor` / `terminal` / `document` / `state` / `selections` is
modelled as a `Bool` (a present object, including an empty `selections`
array, is truthy).  `changes` is modelled by the length of the content
change list when present.  Numeric fields are `Option Int` (an absent
field fails both `> 1` and `=== 0`).  String fields are
`Option (List Char)`. -/
structure Context where
  editor : Bool := false
  fileName : Option (List Char) := none
  languageId : Option (List Char) := none
  isUntitled : Bool := false
  tabCountIncreased : Bool := false
  tabCountChanged : Bool := false
  tabGroupCountIncreased : Bool := false
  viewColumnChanged : Bool := false
  tabGroupCount : Option Int := none
  becameNonPreview : Bool := false
  tabCountInActiveGroup : Option Int := none
  terminal : Bool := false
  document : Bool := false
  selections : Bool := false
  changes : Option Nat := none
  state : Bool := false
  deriving DecidableEq, Repr

/-- `InteractionEvent`: type tag, timestamp, optional context. -/
structure InteractionEvent where
  type : InteractionType
  timestamp : Int := 0
  context : Option Context := none
  deriving DecidableEq, Repr

/-- `ctx.fileName?.includes('Untitled') ?? false`. -/
def fileNameHasUntitled (c : Context) : Bool :=
  match c.fileName with
  | none => false
  | some n => containsSub n (str "Untitled")

/-- `ctx.languageId === 'markdown' || ctx.fileName?.endsWith('.md') ||
ctx.fileName?.endsWith('.markdown')` (an absent `fileName` makes the
optional-chaining calls `undefined`, hence falsy). -/
def isMarkdownCtx (c : Context) : Bool :=
  decide (c.languageId = some (str "markdown")) ||
    (match c.fileName with
     | none => false
     | some n => endsList n (str ".md") || endsList n (str ".markdown"))

/-- `ctx.tabGroupCount > 1` (`undefined > 1` is false). -/
def tabGroupCountGtOne (c : Context) : Bool :=
  match c.tabGroupCount with
  | none => false
  | some n => decide (1 < n)

/-- `ctx.tabCountInActiveGroup === 0` (`undefined === 0` is false). -/
def tabCountInActiveGroupEqZero (c : Context) : Bool :=
  match c.tabCountInActiveGroup with
  | none => false
  | some n => decide (n = 0)

/-- The regex test `/Alt\+\d/.test(shortcut)`: does `Alt+` followed by
a digit occur anywhere in the keys? -/
def hasAltDigit : List Char → Bool
  | [] => false
  | c0 :: rest =>
    (match c0, rest with
     | 'A', 'l' :: 't' :: '+' :: d :: _ => d.isDigit
     | _, _ => false) ||
      hasAltDigit rest

/-- The per-shortcut predicate of `filterActiveEditorChange`, groups
tested in source order; a shortcut matched by no group passes. -/
def editorChangePred (c : Context) (s : Shortcut) : Bool :=
  let k := s.shortcut
  -- GROUP 1: SPLIT EDITOR
  if containsSub k (str "Ctrl+\\") then c.tabGroupCountIncreased
  -- GROUP 2: NEW FILES
  else if containsSub k (str "Ctrl+N") then
    (c.isUntitled || fileNameHasUntitled c) && c.tabCountIncreased
  else if containsSub k (str "Ctrl+O") || containsSub k (str "Ctrl+P") then
    !c.isUntitled && !fileNameHasUntitled c && c.tabCountIncreased
  else if containsSub k (str "Ctrl+Shift+T") then c.tabCountIncreased
  -- GROUP 3: NAVIGATION WITHIN TABS
  else if containsSub k (str "PageUp") || containsSub k (str "PageDown") then
    !c.tabCountChanged && !c.viewColumnChanged
  else if containsSub k (str "Ctrl+Tab") then !c.tabCountChanged
  else if containsSub k (str "Alt+") && hasAltDigit k then
    !c.tabCountChanged && !c.viewColumnChanged
  else if containsSub k (str "Ctrl+1") || containsSub k (str "Ctrl+2") ||
      containsSub k (str "Ctrl+3") then
    c.viewColumnChanged && !c.tabCountChanged
  -- GROUP 4: EDITOR GROUP NAVIGATION
  else if containsSub k (str "Ctrl+K Ctrl+←") || containsSub k (str "Ctrl+K Ctrl+→") then
    c.viewColumnChanged && !c.tabCountChanged
  -- GROUP 5: MOVING EDITORS
  else if containsSub k (str "Ctrl+K ←") || containsSub k (str "Ctrl+K →") then
    tabGroupCountGtOne c
  else if containsSub k (str "Ctrl+Shift+PgUp") || containsSub k (str "Ctrl+Shift+PgDn") then
    !c.tabCountChanged
  -- GROUP 6: PREVIEW MODE
  else if containsSub k (str "Ctrl+K Enter") then c.becameNonPreview
  -- GROUP 7: MARKDOWN PREVIEW
  else if containsSub k (str "Ctrl+K V") then
    isMarkdownCtx c && c.tabGroupCountIncreased
  else if containsSub k (str "Ctrl+Shift+V") then isMarkdownCtx c
  -- GROUP 8: GO TO DEFINITION
  else if k = str "F12" then true
  else if containsSub k (str "Ctrl+K F12") then c.tabGroupCountIncreased
  -- GROUP 9: LAYOUT CHANGES
  else if containsSub k (str "Shift+Alt+0") then tabGroupCountGtOne c
  -- GROUP 10: CLOSE ALL
  else if containsSub k (str "Ctrl+K Ctrl+W") then tabCountInActiveGroupEqZero c
  -- Default: allow if we cannot confidently filter out
  else true

/-- `filterActiveEditorChange`: empty unless an editor is present, then
filter by the per-group predicate. -/
def filterActiveEditorChange (shortcuts : List Shortcut) (e : InteractionEvent) :
    List Shortcut :=
  match e.context with
  | none => []
  | some c => if c.editor then shortcuts.filter (editorChangePred c) else []

/-- `filterActiveTerminalChange`: requires a present terminal. -/
def filterActiveTerminalChange (shortcuts : List Shortcut) (e : InteractionEvent) :
    List Shortcut :=
  match e.context with
  | none => []
  | some c => if c.terminal then shortcuts else []

/-- `filterDocumentClose`: requires a present document. -/
def filterDocumentClose (shortcuts : List Shortcut) (e : InteractionEvent) :
    List Shortcut :=
  match e.context with
  | none => []
  | some c => if c.document then shortcuts else []

/-- `filterFileSave`: requires a present document. -/
def filterFileSave (shortcuts : List Shortcut) (e : InteractionEvent) :
    List Shortcut :=
  match e.context with
  | none => []
  | some c => if c.document then shortcuts else []

/-- `filterSelectionChange`: requires a present editor and a present
selections array. -/
def filterSelectionChange (shortcuts : List Shortcut) (e : InteractionEvent) :
    List Shortcut :=
  match e.context with
  | none => []
  | some c => if c.editor && c.selections then shortcuts else []

/-- `filterTextChange`: requires a present, non-empty change list. -/
def filterTextChange (shortcuts : List Shortcut) (e : InteractionEvent) :
    List Shortcut :=
  match e.context with
  | none => []
  | some c =>
    match c.changes with
    | none => []
    | some 0 => []
    | some (_ + 1) => shortcuts

/-- `filterWindowStateChange`: requires a present state object. -/
def filterWindowStateChange (shortcuts : List Shortcut) (e : InteractionEvent) :
    List Shortcut :=
  match e.context with
  | none => []
  | some c => if c.state then shortcuts else []

/-- `filterByContext`: per-type dispatch.  `commandExecution`,
`panelVisibilityChange`, the IntelliSense/peek/quick-fix/references
triggers and `debugStart`/`debugStop` pass candidates through
unfiltered, as does the `default` branch. -/
def filterByContext (shortcuts : List Shortcut) (e : InteractionEvent) :
    List Shortcut :=
  match e.type with
  | .activeEditorChange => filterActiveEditorChange shortcuts e
  | .activeTerminalChange => filterActiveTerminalChange shortcuts e
  | .commandExecution => shortcuts
  | .documentClose => filterDocumentClose shortcuts e
  | .fileSave => filterFileSave shortcuts e
  | .intelliSenseTrigger => shortcuts
  | .panelVisibilityChange => shortcuts
  | .peekDefinitionTrigger => shortcuts
  | .quickFixTrigger => shortcuts
  | .referencesTrigger => shortcuts
  | .selectionChange => filterSelectionChange shortcuts e
  | .textChange => filterTextChange shortcuts e
  | .windowStateChange => filterWindowStateChange shortcuts e
  | .debugStart => shortcuts
  | .debugStop => shortcuts
  | .tipOfTheDay => shortcuts

/-- `Math.floor(random * n)` for a rational draw `r`, computed on the
numerator and denominator of `r` (the quotient `/` on `ℤ` rounds toward
`-∞` for the positive denominator, so this is the floor — see
`randIndex_eq_floor`). -/
def randIndex (r : ℚ) (n : ℕ) : ℕ :=
  ((r.num * (n : ℤ)) / (r.den : ℤ)).toNat

/-- `selectRandomShortcut`: `shortcuts[Math.floor(random * length)]`,
with the injected draw `r` in place of `Math.random()`; an
out-of-range index yields `none` (JS `undefined`). -/
def selectRandomShortcut (r : ℚ) (shortcuts : List Shortcut) : Option Shortcut :=
  shortcuts[randIndex r shortcuts.length]?

/-- `selectBestShortcut`: prefer `Alt+Tab` on `windowStateChange` and
``Ctrl+` `` on `activeTerminalChange`; otherwise (and when the preferred
shortcut is absent) pick uniformly at random. -/
def selectBestShortcut (r : ℚ) (shortcuts : List Shortcut)
    (t : InteractionType) : Option Shortcut :=
  match t with
  | .windowStateChange =>
    match shortcuts.find? (fun s => s.shortcut = str "Alt+Tab") with
    | some s => some s
    | none => selectRandomShortcut r shortcuts
  | .activeTerminalChange =>
    match shortcuts.find? (fun s => s.shortcut = str "Ctrl+`") with
    | some s => some s
    | none => selectRandomShortcut r shortcuts
  | _ => selectRandomShortcut r shortcuts

/-- `getShortcutKey`: the session key `` `${shortcut}:${action}` ``. -/
def getShortcutKey (s : Shortcut) : List Char :=
  s.shortcut ++ ':' :: s.action

/-- The session key built directly from an identity pair. -/
def keyOfPair (shortcut action : List Char) : List Char :=
  shortcut ++ ':' :: action

/-- `formatAction`: strip `"` characters, replace newlines by spaces,
trim, and lowercase the first character when it equals its own
uppercase form. -/
def formatAction (action : List Char) : List Char :=
  let formatted :=
    trim ((action.filter (· ≠ '"')).map (fun c => if c = '\n' then ' ' else c))
  match formatted with
  | [] => []
  | c :: rest => if c = c.toUpper then c.toLower :: rest else c :: rest

/-- The information message of `showRecommendation`. -/
def recMessage (s : Shortcut) : List Char :=
  str "Shortcut Tip: Use " ++ s.shortcut ++ str " to " ++ formatAction s.action

/-- Process-lifetime mutable state of the `Analyzer`. -/
structure AnalyzerState where
  lastRecommendationTime : Int := 0
  cooldownInterval : Int := 300000
  sessionRecommendationLimit : Nat := 3
  shownShortcuts : Finset (List Char) := ∅
  deriving DecidableEq

/-- One primitive side effect of an `analyzeInteraction` invocation, in
program order: the two state commits and the Presentation Sink call
(`vscode.window.showInformationMessage`). -/
inductive Action where
  | setLastRecommendationTime (t : Int)
  | addShown (key : List Char)
  | present (shortcut action message : List Char)
  deriving DecidableEq, Repr

/-- `isSessionLimitReached`: `shownShortcuts.size >= sessionRecommendationLimit`. -/
def limitReached (st : AnalyzerState) : Bool :=
  decide (st.sessionRecommendationLimit ≤ st.shownShortcuts.card)

/-- `matchingShortcuts`: the catalog lookup
`shortcutsLoader.getShortcutsByType(event.type)`.  The catalog is a
parameter so every theorem quantifies over its content. -/
def matchingShortcuts (catalog : InteractionType → List Shortcut)
    (e : InteractionEvent) : List Shortcut :=
  catalog e.type

/-- `filteredShortcuts`: context filtering of the matching records. -/
def filteredShortcuts (catalog : InteractionType → List Shortcut)
    (e : InteractionEvent) : List Shortcut :=
  filterByContext (matchingShortcuts catalog e) e

/-- `unlearnedShortcuts`: drop candidates whose identity is learned. -/
def unlearnedShortcuts (ledger : Manager)
    (catalog : InteractionType → List Shortcut) (e : InteractionEvent) :
    List Shortcut :=
  (filteredShortcuts catalog e).filter
    (fun s => !isLearned ledger s.shortcut s.action)

/-- `candidates`: when the session limit is reached, restrict to
shortcuts already shown this session. -/
def candidatesOf (st : AnalyzerState) (ledger : Manager)
    (catalog : InteractionType → List Shortcut) (e : InteractionEvent) :
    List Shortcut :=
  if limitReached st then
    (unlearnedShortcuts ledger catalog e).filter
      (fun s => decide (getShortcutKey s ∈ st.shownShortcuts))
  else unlearnedShortcuts ledger catalog e

/-- The state commit performed before showing a recommendation. -/
def applyCommit (st : AnalyzerState) (now : Int) (sel : Shortcut) :
    AnalyzerState :=
  { st with
      lastRecommendationTime := now
      shownShortcuts := insert (getShortcutKey sel) st.shownShortcuts }

/-- The ordered action trace of a successful recommendation cycle. -/
def recTrace (now : Int) (sel : Shortcut) : List Action :=
  [.setLastRecommendationTime now,
   .addShown (getShortcutKey sel),
   .present sel.shortcut sel.action (recMessage sel)]

/-- `analyzeInteraction`: the decision sequence — cooldown gate, catalog
lookup, context filter, learned exclusion, session budget, selection,
commit, present — with each early return leaving the state untouched
and an empty trace.  `now` models `Date.now()` and `r` the
`Math.random()` draw.  The result is `none` exactly when the selection
step would index out of bounds (the JS code would then fault on
`undefined`), which cannot happen for `0 ≤ r < 1`. -/
def analyzeInteraction (st : AnalyzerState) (ledger : Manager)
    (catalog : InteractionType → List Shortcut) (e : InteractionEvent)
    (now : Int) (r : ℚ) : Option (AnalyzerState × List Action) :=
  if now - st.lastRecommendationTime < st.cooldownInterval then some (st, [])
  else if matchingShortcuts catalog e = [] then some (st, [])
  else if filteredShortcuts catalog e = [] then some (st, [])
  else if unlearnedShortcuts ledger catalog e = [] then some (st, [])
  else if candidatesOf st ledger catalog e = [] then some (st, [])
  else
    match selectBestShortcut r (candidatesOf st ledger catalog e) e.type with
    | none => none
    | some sel => some (applyCommit st now sel, recTrace now sel)

/-! ## Concrete sample data for instantiations -/

/-- A sample catalog row whose keys match no editor-change group. -/
def sampleA : Shortcut :=
  { shortcut := str "F11", action := str "Toggle full screen"
    interactionType := str "commandExecution", implemented := true }

/-- A second sample catalog row, distinct from `sampleA`. -/
def sampleB : Shortcut :=
  { shortcut := str "F6", action := str "Focus next part"
    interactionType := str "commandExecution", implemented := true }

/-- A catalog row carrying the new-file key combination. -/
def ctrlN : Shortcut :=
  { shortcut := str "Ctrl+N", action := str "New untitled file"
    interactionType := str "activeEditorChange", implemented := true }

/-- A catalog row carrying the open-file key combination. -/
def ctrlO : Shortcut :=
  { shortcut := str "Ctrl+O", action := str "Open file"
    interactionType := str "activeEditorChange", implemented := true }

/-- A catalog row carrying the quick-open key combination. -/
def ctrlP : Shortcut :=
  { shortcut := str "Ctrl+P", action := str "Quick open"
    interactionType := str "activeEditorChange", implemented := true }

/-- A fresh engine state with a short cooldown. -/
def sampleState : AnalyzerState :=
  { lastRecommendationTime := 0, cooldownInterval := 5
    sessionRecommendationLimit := 3, shownShortcuts := ∅ }

/-- An empty learned ledger. -/
def emptyLedger : Manager := ⟨[]⟩

/-- A ledger in which `sampleB` has been learned. -/
def ledgerB : Manager := ⟨[getShortcutId (str "F6") (str "Focus next part")]⟩

/-- A sample catalog carrying both sample rows for `commandExecution`. -/
def sampleCatalog : InteractionType → List Shortcut := fun t =>
  if t = .commandExecution then [sampleA, sampleB] else []

/-- A `commandExecution` event without context. -/
def sampleEvent : InteractionEvent := { type := .commandExecution }

/-- The rational draw `3/5`, built from numerator and denominator. -/
def ratDraw : ℚ := Rat.mk' 3 5 (by decide) (by norm_num)

/-- An editor-change context for a fresh untitled file. -/
def ctxUntitled : Context :=
  { editor := true, isUntitled := true, tabCountIncreased := true }

/-- An editor-change context for a newly opened (titled) file. -/
def ctxOpenFile : Context :=
  { editor := true, tabCountIncreased := true }

/-! ## Helper lemmas -/

theorem ratDraw_eq : ratDraw = 3 / 5 := by
  rw [ratDraw, Rat.mk'_eq_divInt, Rat.divInt_eq_div]; norm_num

theorem randIndex_eq_floor (r : ℚ) (n : ℕ) :
    randIndex r n = (⌊r * (n : ℚ)⌋).toNat := by
  unfold randIndex
  rw [show r * (n : ℚ) = ((r.num * (n : ℤ) : ℤ) : ℚ) / ((r.den : ℕ) : ℚ) by
    push_cast
    rw [mul_comm (r.num : ℚ), mul_div_assoc, Rat.num_div_den]
    ring]
  rw [Rat.floor_intCast_div_natCast]

theorem randIndex_lt (r : ℚ) (n : ℕ) (h0 : 0 ≤ r) (h1 : r < 1) (hn : 0 < n) :
    randIndex r n < n := by
  rw [randIndex_eq_floor]
  have hn' : (0 : ℚ) < (n : ℚ) := by exact_mod_cast hn
  have hlt : r * (n : ℚ) < (n : ℚ) := by
    calc r * (n : ℚ) < 1 * (n : ℚ) := by
          exact mul_lt_mul_of_pos_right h1 hn'
      _ = (n : ℚ) := one_mul _
  have hfl : ⌊r * (n : ℚ)⌋ < (n : ℤ) := by
    rw [Int.floor_lt]; exact_mod_cast hlt
  have hge : (0 : ℤ) ≤ ⌊r * (n : ℚ)⌋ := by
    apply Int.floor_nonneg.mpr
    positivity
  omega

theorem randIndex_zero (r : ℚ) (n : ℕ) (h0 : 0 ≤ r) (hn : 0 < n)
    (h : r < 1 / (n : ℚ)) : randIndex r n = 0 := by
  rw [randIndex_eq_floor]
  have hn' : (0 : ℚ) < (n : ℚ) := by exact_mod_cast hn
  have hlt : r * (n : ℚ) < 1 := (lt_div_iff₀ hn').mp h
  have hfl : ⌊r * (n : ℚ)⌋ = 0 := by
    apply Int.floor_eq_zero_iff.mpr
    constructor
    · positivity
    · exact hlt
  rw [hfl]; rfl

theorem selectRandomShortcut_mem {r : ℚ} {l : List Shortcut} {s : Shortcut}
    (h : selectRandomShortcut r l = some s) : s ∈ l := by
  unfold selectRandomShortcut at h
  rw [List.getElem?_eq_some] at h
  obtain ⟨hlt, rfl⟩ := h
  exact List.getElem_mem hlt

theorem selectRandomShortcut_isSome {r : ℚ} {l : List Shortcut}
    (hl : l ≠ []) (h0 : 0 ≤ r) (h1 : r < 1) :
    (selectRandomShortcut r l).isSome = true := by
  unfold selectRandomShortcut
  rw [List.getElem?_eq_getElem (randIndex_lt r l.length h0 h1 (List.length_pos.mpr hl))]
  rfl

theorem selectBestShortcut_mem {r : ℚ} {l : List Shortcut}
    {t : InteractionType} {s : Shortcut}
    (h : selectBestShortcut r l t = some s) : s ∈ l := by
  unfold selectBestShortcut at h
  split at h
  · split at h
    · rename_i v hf
      injection h with h
      subst h
      exact List.mem_of_find?_eq_some hf
    · exact selectRandomShortcut_mem h
  · split at h
    · rename_i v hf
      injection h with h
      subst h
      exact List.mem_of_find?_eq_some hf
    · exact selectRandomShortcut_mem h
  · exact selectRandomShortcut_mem h

theorem selectBestShortcut_isSome {r : ℚ} {l : List Shortcut}
    (t : InteractionType) (hl : l ≠ []) (h0 : 0 ≤ r) (h1 : r < 1) :
    (selectBestShortcut r l t).isSome = true := by
  unfold selectBestShortcut
  split
  · split
    · rfl
    · exact selectRandomShortcut_isSome hl h0 h1
  · split
    · rfl
    · exact selectRandomShortcut_isSome hl h0 h1
  · exact selectRandomShortcut_isSome hl h0 h1

/-- Every invocation of `analyzeInteraction` that returns a result is
either a no-op (unchanged state, empty trace) or a successful
recommendation cycle: a candidate is selected, the commit is applied to
the state and the trace is the commit-then-present sequence. -/
theorem analyzeInteraction_cases (st : AnalyzerState) (ledger : Manager)
    (catalog : InteractionType → List Shortcut) (e : InteractionEvent)
    (now : Int) (r : ℚ) {st' : AnalyzerState} {tr : List Action}
    (h : analyzeInteraction st ledger catalog e now r = some (st', tr)) :
    (st' = st ∧ tr = []) ∨
    ∃ sel, sel ∈ candidatesOf st ledger catalog e ∧
      st' = applyCommit st now sel ∧ tr = recTrace now sel := by
  unfold analyzeInteraction at h
  split_ifs at h with h1 h2 h3 h4 h5
  · injection h with h
    injection h with ha hb
    exact Or.inl ⟨ha.symm, hb.symm⟩
  · injection h with h
    injection h with ha hb
    exact Or.inl ⟨ha.symm, hb.symm⟩
  · injection h with h
    injection h with ha hb
    exact Or.inl ⟨ha.symm, hb.symm⟩
  · injection h with h
    injection h with ha hb
    exact Or.inl ⟨ha.symm, hb.symm⟩
  · injection h with h
    injection h with ha hb
    exact Or.inl ⟨ha.symm, hb.symm⟩
  · split at h
    · exact absurd h (by simp)
    · rename_i sel hsel
      injection h with h
      injection h with ha hb
      exact Or.inr ⟨sel, selectBestShortcut_mem hsel, ha.symm, hb.symm⟩

/-- Candidates surviving the session-budget restriction come from the
unlearned pool. -/
theorem candidatesOf_subset {st : AnalyzerState} {ledger : Manager}
    {catalog : InteractionType → List Shortcut} {e : InteractionEvent}
    {s : Shortcut} (h : s ∈ candidatesOf st ledger catalog e) :
    s ∈ unlearnedShortcuts ledger catalog e := by
  unfold candidatesOf at h
  split at h
  · exact (List.mem_filter.mp h).1
  · exact h

/-- When the session limit is reached, every candidate's session key is
already in `shownShortcuts`. -/
theorem candidatesOf_shown {st : AnalyzerState} {ledger : Manager}
    {catalog : InteractionType → List Shortcut} {e : InteractionEvent}
    {s : Shortcut}
    (hlim : st.sessionRecommendationLimit ≤ st.shownShortcuts.card)
    (h : s ∈ candidatesOf st ledger catalog e) :
    getShortcutKey s ∈ st.shownShortcuts := by
  have hc : limitReached st = true := decide_eq_true hlim
  unfold candidatesOf at h
  rw [hc] at h
  simp only [if_true] at h
  exact of_decide_eq_true (List.mem_filter.mp h).2

/-- Members of the unlearned pool are not learned. -/
theorem unlearnedShortcuts_not_learned {ledger : Manager}
    {catalog : InteractionType → List Shortcut} {e : InteractionEvent}
    {s : Shortcut} (h : s ∈ unlearnedShortcuts ledger catalog e) :
    isLearned ledger s.shortcut s.action = false := by
  have := (List.mem_filter.mp h).2
  simpa using this

/-! ## Claim theorems -/

/-- C2: Cooldown.  If an invocation of `analyzeInteraction` at time `t`
presented a recommendation, then any invocation at time `t + Δ` with
`Δ < cooldownInterval` presents nothing and leaves the engine state
unchanged, regardless of event type, catalog content, ledger or draw. -/
theorem cooldown_suppresses_repeat
    (st st' : AnalyzerState) (ledger : Manager)
    (catalog : InteractionType → List Shortcut) (e : InteractionEvent)
    (t : Int) (r : ℚ) (tr : List Action)
    (h : analyzeInteraction st ledger catalog e t r = some (st', tr))
    (sh ac msg : List Char) (hp : Action.present sh ac msg ∈ tr)
    (ledger₂ : Manager) (catalog₂ : InteractionType → List Shortcut)
    (e₂ : InteractionEvent) (r₂ : ℚ) (Δ : Int)
    (hΔ : Δ < st'.cooldownInterval) :
    analyzeInteraction st' ledger₂ catalog₂ e₂ (t + Δ) r₂ = some (st', []) := by
  rcases analyzeInteraction_cases _ _ _ _ _ _ h with ⟨_, rfl⟩ | ⟨sel, _, hst, _⟩
  · exact absurd hp (List.not_mem_nil _)
  · have hlast : st'.lastRecommendationTime = t := by rw [hst]; rfl
    unfold analyzeInteraction
    rw [if_pos (by rw [hlast]; omega)]

/-- C3: Session budget.  Across any invocation, `shownThisSession` only
grows, at most one member is added, and when the session limit was
already reached at invocation start, every identity committed by the
cycle (the `addShown` action) was already a member at selection time. -/
theorem session_budget_monotone
    (st : AnalyzerState) (ledger : Manager)
    (catalog : InteractionType → List Shortcut) (e : InteractionEvent)
    (now : Int) (r : ℚ) (st' : AnalyzerState) (tr : List Action)
    (h : analyzeInteraction st ledger catalog e now r = some (st', tr)) :
    st.shownShortcuts ⊆ st'.shownShortcuts ∧
    st'.shownShortcuts.card ≤ st.shownShortcuts.card + 1 ∧
    (st.sessionRecommendationLimit ≤ st.shownShortcuts.card →
      ∀ k, Action.addShown k ∈ tr → k ∈ st.shownShortcuts) := by
  rcases analyzeInteraction_cases _ _ _ _ _ _ h with ⟨rfl, rfl⟩ | ⟨sel, hmem, rfl, rfl⟩
  · exact ⟨Finset.Subset.refl _, Nat.le_succ _,
      fun _ k hk => absurd hk (List.not_mem_nil _)⟩
  · refine ⟨Finset.subset_insert _ _, Finset.card_insert_le _ _, ?_⟩
    intro hlim k hk
    have hkey : k = getShortcutKey sel := by
      simp only [recTrace, List.mem_cons, List.not_mem_nil, or_false] at hk
      rcases hk with hk | hk | hk
      · exact absurd hk (by simp)
      · injection hk
      · exact absurd hk (by simp)
    subst hkey
    exact candidatesOf_shown hlim hmem

/-- C4: Learned exclusion.  If an identity is learned at the start of an
`analyzeInteraction` invocation, that invocation never presents it, for
every event type and catalog content. -/
theorem learned_never_presented
    (st : AnalyzerState) (ledger : Manager)
    (catalog : InteractionType → List Shortcut) (e : InteractionEvent)
    (now : Int) (r : ℚ) (st' : AnalyzerState) (tr : List Action)
    (h : analyzeInteraction st ledger catalog e now r = some (st', tr))
    (sh ac : List Char) (hL : isLearned ledger sh ac = true)
    (msg : List Char) : Action.present sh ac msg ∉ tr := by
  intro hp
  rcases analyzeInteraction_cases _ _ _ _ _ _ h with ⟨_, rfl⟩ | ⟨sel, hmem, _, rfl⟩
  · exact absurd hp (List.not_mem_nil _)
  · have hid : sh = sel.shortcut ∧ ac = sel.action := by
      simp only [recTrace, List.mem_cons, List.not_mem_nil, or_false] at hp
      rcases hp with hp | hp | hp
      · exact absurd hp (by simp)
      · exact absurd hp (by simp)
      · exact ⟨by injection hp, by injection hp⟩
    have hnl := unlearnedShortcuts_not_learned (candidatesOf_subset hmem)
    rw [hid.1, hid.2, hnl] at hL
    exact absurd hL (by simp)

/-- C5: Commit-before-present.  In every run whose trace presents a
recommendation, the `lastRecommendationTime` update and the insertion of
the selected identity into `shownThisSession` occur at strictly earlier
trace positions than the Presentation Sink call, and both commits are
reflected in the returned state. -/
theorem commit_happens_before_present
    (st : AnalyzerState) (ledger : Manager)
    (catalog : InteractionType → List Shortcut) (e : InteractionEvent)
    (now : Int) (r : ℚ) (st' : AnalyzerState) (tr : List Action)
    (h : analyzeInteraction st ledger catalog e now r = some (st', tr))
    (i : ℕ) (sh ac msg : List Char)
    (hi : tr[i]? = some (.present sh ac msg)) :
    (∃ j, j < i ∧ tr[j]? = some (.setLastRecommendationTime now)) ∧
    (∃ k, k < i ∧ tr[k]? = some (.addShown (keyOfPair sh ac))) ∧
    st'.lastRecommendationTime = now ∧
    keyOfPair sh ac ∈ st'.shownShortcuts := by
  rcases analyzeInteraction_cases _ _ _ _ _ _ h with ⟨_, rfl⟩ | ⟨sel, _, rfl, rfl⟩
  · simp at hi
  · match i, hi with
    | 0, hi =>
      have hx : Action.setLastRecommendationTime now = Action.present sh ac msg := by
        injection hi
      exact absurd hx (by simp)
    | 1, hi =>
      have hx : Action.addShown (getShortcutKey sel) = Action.present sh ac msg := by
        injection hi
      exact absurd hx (by simp)
    | 2, hi =>
      have hi' : Action.present sel.shortcut sel.action (recMessage sel) =
          Action.present sh ac msg := by injection hi
      have hsh : sh = sel.shortcut := by injection hi' with a b c; exact a.symm
      have hac : ac = sel.action := by injection hi' with a b c; exact b.symm
      subst hsh; subst hac
      exact ⟨⟨0, by omega, rfl⟩, ⟨1, by omega, rfl⟩, rfl,
        Finset.mem_insert_self _ _⟩
    | (n + 3), hi => simp [recTrace] at hi

/-- The editor-change filter only removes candidates. -/
theorem filterActiveEditorChange_sublist (l : List Shortcut)
    (e : InteractionEvent) :
    (filterActiveEditorChange l e).Sublist l := by
  obtain ⟨t, ts, ctx⟩ := e
  cases ctx with
  | none => exact List.nil_sublist _
  | some c =>
    show (if c.editor = true then List.filter (editorChangePred c) l
      else []).Sublist l
    split
    · exact List.filter_sublist _
    · exact List.nil_sublist _

/-- The terminal-change filter only removes candidates. -/
theorem filterActiveTerminalChange_sublist (l : List Shortcut)
    (e : InteractionEvent) :
    (filterActiveTerminalChange l e).Sublist l := by
  obtain ⟨t, ts, ctx⟩ := e
  cases ctx with
  | none => exact List.nil_sublist _
  | some c =>
    show (if c.terminal = true then l else []).Sublist l
    split
    · exact List.Sublist.refl _
    · exact List.nil_sublist _

/-- The document-close filter only removes candidates. -/
theorem filterDocumentClose_sublist (l : List Shortcut)
    (e : InteractionEvent) :
    (filterDocumentClose l e).Sublist l := by
  obtain ⟨t, ts, ctx⟩ := e
  cases ctx with
  | none => exact List.nil_sublist _
  | some c =>
    show (if c.document = true then l else []).Sublist l
    split
    · exact List.Sublist.refl _
    · exact List.nil_sublist _

/-- The file-save filter only removes candidates. -/
theorem filterFileSave_sublist (l : List Shortcut) (e : InteractionEvent) :
    (filterFileSave l e).Sublist l := by
  obtain ⟨t, ts, ctx⟩ := e
  cases ctx with
  | none => exact List.nil_sublist _
  | some c =>
    show (if c.document = true then l else []).Sublist l
    split
    · exact List.Sublist.refl _
    · exact List.nil_sublist _

/-- The selection-change filter only removes candidates. -/
theorem filterSelectionChange_sublist (l : List Shortcut)
    (e : InteractionEvent) :
    (filterSelectionChange l e).Sublist l := by
  obtain ⟨t, ts, ctx⟩ := e
  cases ctx with
  | none => exact List.nil_sublist _
  | some c =>
    show (if (c.editor && c.selections) = true then l else []).Sublist l
    split
    · exact List.Sublist.refl _
    · exact List.nil_sublist _

/-- The text-change filter only removes candidates. -/
theorem filterTextChange_sublist (l : List Shortcut) (e : InteractionEvent) :
    (filterTextChange l e).Sublist l := by
  obtain ⟨t, ts, ctx⟩ := e
  cases ctx with
  | none => exact List.nil_sublist _
  | some c =>
    show (match c.changes with
      | none => []
      | some 0 => []
      | some (_ + 1) => l).Sublist l
    rcases c.changes with _ | (_ | n)
    · exact List.nil_sublist _
    · exact List.nil_sublist _
    · exact List.Sublist.refl _

/-- The window-state filter only removes candidates. -/
theorem filterWindowStateChange_sublist (l : List Shortcut)
    (e : InteractionEvent) :
    (filterWindowStateChange l e).Sublist l := by
  obtain ⟨t, ts, ctx⟩ := e
  cases ctx with
  | none => exact List.nil_sublist _
  | some c =>
    show (if c.state = true then l else []).Sublist l
    split
    · exact List.Sublist.refl _
    · exact List.nil_sublist _

/-- The context filter only removes candidates: its output is a sublist
of its input, for every event (including events with absent or
partially populated contexts). -/
theorem filterByContext_sublist (shortcuts : List Shortcut)
    (e : InteractionEvent) :
    (filterByContext shortcuts e).Sublist shortcuts := by
  obtain ⟨t, ts, ctx⟩ := e
  cases t <;>
    first
    | exact filterActiveEditorChange_sublist shortcuts _
    | exact filterActiveTerminalChange_sublist shortcuts _
    | exact filterDocumentClose_sublist shortcuts _
    | exact filterFileSave_sublist shortcuts _
    | exact filterSelectionChange_sublist shortcuts _
    | exact filterTextChange_sublist shortcuts _
    | exact filterWindowStateChange_sublist shortcuts _
    | exact List.Sublist.refl _

/-- C9: Totality.  For every event — its context may be absent or
arbitrarily populated — the context filter at most removes candidates,
and `analyzeInteraction` returns a result (never the out-of-bounds
fault) whenever the injected draw satisfies the `Math.random` contract
`0 ≤ r < 1`. -/
theorem engine_total_on_any_context
    (e : InteractionEvent) (shortcuts : List Shortcut)
    (st : AnalyzerState) (ledger : Manager)
    (catalog : InteractionType → List Shortcut) (now : Int) (r : ℚ)
    (h0 : 0 ≤ r) (h1 : r < 1) :
    (filterByContext shortcuts e).Sublist shortcuts ∧
    (analyzeInteraction st ledger catalog e now r).isSome = true := by
  refine ⟨filterByContext_sublist shortcuts e, ?_⟩
  unfold analyzeInteraction
  split_ifs with hg1 hg2 hg3 hg4 hg5
  · rfl
  · rfl
  · rfl
  · rfl
  · rfl
  · have hs := selectBestShortcut_isSome (l := candidatesOf st ledger catalog e)
      e.type hg5 h0 h1
    split
    · rename_i hf
      rw [hf] at hs
      exact absurd hs (by simp)
    · rfl

/-- The editor-change predicate specialises on the new-file row to the
new-file rule of GROUP 2. -/
theorem editorChangePred_ctrlN (c : Context) :
    editorChangePred c ctrlN =
      ((c.isUntitled || fileNameHasUntitled c) && c.tabCountIncreased) := rfl

/-- The editor-change predicate specialises on the open-file row to the
open-file rule of GROUP 2. -/
theorem editorChangePred_ctrlO (c : Context) :
    editorChangePred c ctrlO =
      (!c.isUntitled && !fileNameHasUntitled c && c.tabCountIncreased) := rfl

/-- The editor-change predicate specialises on the quick-open row to the
open-file rule of GROUP 2. -/
theorem editorChangePred_ctrlP (c : Context) :
    editorChangePred c ctrlP =
      (!c.isUntitled && !fileNameHasUntitled c && c.tabCountIncreased) := rfl

/-- C6: Filter correctness (editor-change).  With a present editor,
`isUntitled` and `tabCountIncreased`, the `Ctrl+N` candidate survives
filtering; with `isUntitled` false and no untitled filename (and
`tabCountIncreased` still true) it is excluded while the `Ctrl+O` and
`Ctrl+P` candidates are included. -/
theorem editorChange_filter_correct (c₁ c₂ : Context)
    (h1e : c₁.editor = true) (h1u : c₁.isUntitled = true)
    (h1t : c₁.tabCountIncreased = true)
    (h2e : c₂.editor = true) (h2u : c₂.isUntitled = false)
    (h2f : fileNameHasUntitled c₂ = false) (h2t : c₂.tabCountIncreased = true) :
    filterActiveEditorChange [ctrlN]
      { type := .activeEditorChange, context := some c₁ } = [ctrlN] ∧
    filterActiveEditorChange [ctrlN, ctrlO, ctrlP]
      { type := .activeEditorChange, context := some c₂ } = [ctrlO, ctrlP] := by
  constructor
  · show (if c₁.editor = true then List.filter (editorChangePred c₁) [ctrlN]
      else []) = [ctrlN]
    rw [h1e, if_pos rfl]
    have hpred : editorChangePred c₁ ctrlN = true := by
      rw [editorChangePred_ctrlN, h1u, h1t]
      rfl
    simp [List.filter, hpred]
  · show (if c₂.editor = true
      then List.filter (editorChangePred c₂) [ctrlN, ctrlO, ctrlP]
      else []) = [ctrlO, ctrlP]
    rw [h2e, if_pos rfl]
    have hN : editorChangePred c₂ ctrlN = false := by
      rw [editorChangePred_ctrlN, h2u, h2f]
      rfl
    have hO : editorChangePred c₂ ctrlO = true := by
      rw [editorChangePred_ctrlO, h2u, h2f, h2t]
      rfl
    have hP : editorChangePred c₂ ctrlP = true := by
      rw [editorChangePred_ctrlP, h2u, h2f, h2t]
      rfl
    simp [List.filter, hN, hO, hP]

/-- C1 fails as stated on the code: the draw `3/5` lies in the lower 75%
of the range, yet the editor-change selection step returns the second
candidate of a two-candidate list, not the first — there is no 75%
first-candidate bias in `selectBestShortcut`. -/
theorem editorChange_selection_not_weighted :
    (0 : ℚ) ≤ ratDraw ∧ ratDraw < 3 / 4 ∧
    selectBestShortcut ratDraw [sampleA, sampleB] .activeEditorChange =
      some sampleB ∧ sampleB ≠ sampleA := by
  refine ⟨by decide, ?_, by decide, by decide⟩
  rw [ratDraw_eq]
  norm_num

/-- C1 (amended): for editor-change events the selection step picks
uniformly at random among all remaining candidates — with draw
`r ∈ [0, 1)` it returns the candidate at index `⌊r · n⌋`, a valid
index; the first candidate is returned when the draw falls in the lower
`1/n` of its range (not the lower 75%). -/
theorem editorChange_selection_uniform (r : ℚ) (l : List Shortcut)
    (h0 : 0 ≤ r) (h1 : r < 1) (hl : l ≠ []) :
    selectBestShortcut r l .activeEditorChange = l[randIndex r l.length]? ∧
    randIndex r l.length = (⌊r * (l.length : ℚ)⌋).toNat ∧
    randIndex r l.length < l.length ∧
    (r < 1 / (l.length : ℚ) →
      selectBestShortcut r l .activeEditorChange = l[0]?) := by
  have hn := List.length_pos.mpr hl
  refine ⟨rfl, randIndex_eq_floor r l.length,
    randIndex_lt r l.length h0 h1 hn, ?_⟩
  intro hr
  show l[randIndex r l.length]? = l[0]?
  rw [randIndex_zero r l.length h0 hn hr]

/-- The spec-side field splitter always produces at least one field. -/
theorem specRawFields_ne_nil (cs : List Char) (q : Bool) :
    specRawFields cs q ≠ [] := by
  induction cs generalizing q with
  | nil => simp [specRawFields]
  | cons c cs ih =>
    unfold specRawFields
    split_ifs with h1 h2
    · exact ih _
    · simp
    · rcases hx : specRawFields cs q with _ | ⟨f, fs⟩
      · simp [consHead]
      · simp [consHead]

/-- Pushing a character into the current field commutes with prepending
the pending prefix. -/
theorem prependCur_consHead (ch : Char) (cur : List Char)
    (x : List (List Char)) :
    prependCur cur (consHead ch x) = prependCur (cur ++ [ch]) x := by
  cases x <;> simp [consHead, prependCur]

/-- The source field loop computes the spec-side fields, modulo the
accumulated prefix and already-pushed fields. -/
theorem parseFieldsLoop_eq (cs : List Char) (cur : List Char) (q : Bool)
    (acc : List (List Char)) :
    parseFieldsLoop cs cur q acc =
      acc ++ (prependCur cur (specRawFields cs q)).map trim := by
  induction cs generalizing cur q acc with
  | nil => simp [parseFieldsLoop, specRawFields, prependCur]
  | cons ch cs ih =>
    unfold parseFieldsLoop specRawFields
    split_ifs with h1 h2
    · rw [ih]
    · rcases hx : specRawFields cs q with _ | ⟨f, fs⟩
      · exact absurd hx (specRawFields_ne_nil cs q)
      · rw [ih, hx]
        simp [prependCur]
    · rw [ih, prependCur_consHead]

/-- The fields parsed by the source loop are the spec-side fields. -/
theorem parseFields_eq_specFields (line : List Char) :
    parseFieldsLoop line [] false [] = specFields line := by
  rw [parseFieldsLoop_eq]
  rcases hx : specRawFields line false with _ | ⟨f, fs⟩
  · exact absurd hx (specRawFields_ne_nil _ _)
  · simp [specFields, prependCur, hx]

/-- The source row parser agrees with the spec-side row parser. -/
theorem parseCSVLine_eq_spec (line : List Char) :
    parseCSVLine line = parseLineSpec line := by
  have hfe := parseFields_eq_specFields line
  rcases hx : specFields line with _ | ⟨f0, _ | ⟨f1, _ | ⟨f2, _ | ⟨f3, rest⟩⟩⟩⟩ <;>
    rw [hx] at hfe <;>
    simp [parseCSVLine, parseLineSpec, hfe, hx]

/-- The source line loop agrees with the spec-side trim-filter-parse
pipeline. -/
theorem loadLines_eq_spec (ls : List (List Char)) :
    loadLines ls =
      ((ls.map trim).filter (· ≠ [])).filterMap parseLineSpec := by
  induction ls with
  | nil => rfl
  | cons l rest ih =>
    unfold loadLines
    by_cases h : trim l = []
    · simp [h, ih]
    · rcases hp : parseLineSpec (trim l) with _ | s
      · simp [h, ih, parseCSVLine_eq_spec, hp]
      · simp [h, ih, parseCSVLine_eq_spec, hp]

/-- C7: Catalog loading.  The source loader equals the loader described
by the specification: the first line is skipped as a header, lines empty
after trimming are skipped, fields are split on commas with
double-quote toggling (a comma inside quotes is not a delimiter), rows
with fewer than four parsed fields are dropped without error, and every
other row yields exactly one record with `interactionType` = field 0,
`implemented` = (field 1 case-insensitively equals `"true"`),
`shortcutKeys` = field 2, `actionDescription` = field 3. -/
theorem load_eq_loadSpec (content : List Char) :
    load content = loadSpec content := by
  unfold load loadSpec
  rw [loadLines_eq_spec]

/-- Rebuilding a set with `setAdd` preserves membership of the seed. -/
theorem mem_foldl_setAdd_of_acc {x : List Char} {acc : List (List Char)}
    (l : List (List Char)) (h : x ∈ acc) : x ∈ l.foldl setAdd acc := by
  induction l generalizing acc with
  | nil => exact h
  | cons a l ih =>
    show x ∈ List.foldl setAdd (setAdd acc a) l
    apply ih
    unfold setAdd
    split
    · exact h
    · exact List.mem_append_left _ h

/-- Rebuilding a set with `setAdd` keeps every stored element. -/
theorem mem_foldl_setAdd {x : List Char} {l : List (List Char)}
    (acc : List (List Char)) (h : x ∈ l) : x ∈ l.foldl setAdd acc := by
  induction l generalizing acc with
  | nil => cases h
  | cons a l ih =>
    rcases List.mem_cons.mp h with rfl | h
    · show x ∈ List.foldl setAdd (setAdd acc x) l
      apply mem_foldl_setAdd_of_acc
      unfold setAdd
      split
      · assumption
      · exact List.mem_append_right _ (by simp)
    · exact ih _ h

/-- C8: Round-trip persistence.  For every ledger state and identity,
`markAsLearned` followed by a simulated restart (a fresh
`LearnedShortcutsManager` constructed over the slot it persisted) makes
`isLearned` return true; and `clearAll` followed by a restart yields an
empty ledger set. -/
theorem ledger_roundtrip (m : Manager) (shortcut action : List Char) :
    isLearned (newManager (markAsLearned m shortcut action).2)
      shortcut action = true ∧
    (newManager (clearAll m).2).learned = [] := by
  constructor
  · apply decide_eq_true
    show getShortcutId shortcut action ∈
      ((setAdd m.learned (getShortcutId shortcut action)).foldl setAdd [])
    apply mem_foldl_setAdd
    unfold setAdd
    split
    · assumption
    · exact List.mem_append_right _ (by simp)
  · rfl

/-- Splitting on a character absent from the list is the identity. -/
theorem splitOnChar_not_mem {c : Char} {l : List Char} (h : c ∉ l) :
    splitOnChar c l = [l] := by
  induction l with
  | nil => rfl
  | cons x xs ih =>
    have hx : ¬ x = c := fun hh => h (hh ▸ List.mem_cons_self x xs)
    unfold splitOnChar
    rw [if_neg hx, ih (fun hm => h (List.mem_cons_of_mem _ hm))]

/-- Splitting the composite identity at its separator recovers the two
separator-free fields. -/
theorem splitOnChar_append {c : Char} {s a : List Char}
    (hs : c ∉ s) (ha : c ∉ a) : splitOnChar c (s ++ c :: a) = [s, a] := by
  induction s with
  | nil =>
    show splitOnChar c (c :: a) = [[], a]
    unfold splitOnChar
    rw [if_pos rfl, splitOnChar_not_mem ha]
  | cons x s ih =>
    have hx : ¬ x = c := fun hh => hs (hh ▸ List.mem_cons_self x s)
    show splitOnChar c (x :: (s ++ c :: a)) = [x :: s, a]
    unfold splitOnChar
    rw [if_neg hx, ih (fun hm => hs (List.mem_cons_of_mem _ hm))]

/-- C10: Identity encode/decode round-trip.  For identities whose two
fields contain no `'|'`, decoding the composite identity recovers
exactly the original pair, the learned-details view of a ledger holding
such an identity decomposes it exactly, and the composite encoding is
injective on such identities. -/
theorem identity_roundtrip (s a s' a' : List Char)
    (hs : '|' ∉ s) (ha : '|' ∉ a) (hs' : '|' ∉ s') (ha' : '|' ∉ a') :
    decodeId (getShortcutId s a) = (s, a) ∧
    getLearnedShortcutsDetails (markAsLearned (newManager none) s a).1 =
      [(s, a)] ∧
    (getShortcutId s a = getShortcutId s' a' → s = s' ∧ a = a') := by
  have hdec : decodeId (getShortcutId s a) = (s, a) := by
    unfold decodeId getShortcutId
    rw [splitOnChar_append hs ha]
    rfl
  refine ⟨hdec, ?_, ?_⟩
  · show List.map decodeId (setAdd [] (getShortcutId s a)) = [(s, a)]
    rw [show setAdd [] (getShortcutId s a) = [getShortcutId s a] from rfl]
    rw [List.map_cons, hdec]
    rfl
  · intro he
    have h2 : decodeId (getShortcutId s' a') = (s', a') := by
      unfold decodeId getShortcutId
      rw [splitOnChar_append hs' ha']
      rfl
    rw [he, h2] at hdec
    injection hdec with u v
    exact ⟨u.symm, v.symm⟩

/-! ## Witnesses: the hypothesis-bearing theorems applied at concrete
inputs -/

/-- Witness for C1 (amended): a two-candidate list with draw `0`. -/
theorem editorChange_selection_uniform_witness :
    ((0 : ℚ) ≤ 0 ∧ (0 : ℚ) < 1 ∧ ([sampleA, sampleB] : List Shortcut) ≠ []) ∧
    (selectBestShortcut 0 [sampleA, sampleB] .activeEditorChange =
        [sampleA, sampleB][randIndex 0 ([sampleA, sampleB] : List Shortcut).length]? ∧
      randIndex 0 ([sampleA, sampleB] : List Shortcut).length =
        (⌊(0 : ℚ) * (([sampleA, sampleB] : List Shortcut).length : ℚ)⌋).toNat ∧
      randIndex 0 ([sampleA, sampleB] : List Shortcut).length <
        ([sampleA, sampleB] : List Shortcut).length ∧
      ((0 : ℚ) < 1 / (([sampleA, sampleB] : List Shortcut).length : ℚ) →
        selectBestShortcut 0 [sampleA, sampleB] .activeEditorChange =
          [sampleA, sampleB][0]?)) :=
  ⟨⟨by decide, by decide, by decide⟩,
    editorChange_selection_uniform 0 [sampleA, sampleB]
      (by decide) (by decide) (by decide)⟩

/-- Witness for C2: a successful recommendation at time 10, then a
suppressed invocation at time 13 (inside the 5-tick cooldown). -/
theorem cooldown_suppresses_repeat_witness :
    (analyzeInteraction sampleState emptyLedger sampleCatalog sampleEvent 10 0 =
        some (applyCommit sampleState 10 sampleA, recTrace 10 sampleA) ∧
      Action.present sampleA.shortcut sampleA.action (recMessage sampleA) ∈
        recTrace 10 sampleA ∧
      (3 : Int) < (applyCommit sampleState 10 sampleA).cooldownInterval) ∧
    analyzeInteraction (applyCommit sampleState 10 sampleA) emptyLedger
        sampleCatalog sampleEvent (10 + 3) 0 =
      some (applyCommit sampleState 10 sampleA, []) :=
  ⟨⟨by decide, by decide, by decide⟩,
    cooldown_suppresses_repeat sampleState (applyCommit sampleState 10 sampleA)
      emptyLedger sampleCatalog sampleEvent 10 0 (recTrace 10 sampleA)
      (by decide) sampleA.shortcut sampleA.action (recMessage sampleA)
      (by decide) emptyLedger sampleCatalog sampleEvent 0 3 (by decide)⟩

/-- Witness for C3: the same successful run, checked for monotonicity
and the budget property. -/
theorem session_budget_monotone_witness :
    (analyzeInteraction sampleState emptyLedger sampleCatalog sampleEvent 10 0 =
        some (applyCommit sampleState 10 sampleA, recTrace 10 sampleA)) ∧
    (sampleState.shownShortcuts ⊆
        (applyCommit sampleState 10 sampleA).shownShortcuts ∧
      (applyCommit sampleState 10 sampleA).shownShortcuts.card ≤
        sampleState.shownShortcuts.card + 1 ∧
      (sampleState.sessionRecommendationLimit ≤
          sampleState.shownShortcuts.card →
        ∀ k, Action.addShown k ∈ recTrace 10 sampleA →
          k ∈ sampleState.shownShortcuts)) :=
  ⟨by decide,
    session_budget_monotone sampleState emptyLedger sampleCatalog sampleEvent
      10 0 (applyCommit sampleState 10 sampleA) (recTrace 10 sampleA)
      (by decide)⟩

/-- Witness for C4: with `sampleB` learned, the run selects `sampleA`
and never presents `sampleB`. -/
theorem learned_never_presented_witness :
    (analyzeInteraction sampleState ledgerB sampleCatalog sampleEvent 10 0 =
        some (applyCommit sampleState 10 sampleA, recTrace 10 sampleA) ∧
      isLearned ledgerB (str "F6") (str "Focus next part") = true) ∧
    Action.present (str "F6") (str "Focus next part") (recMessage sampleB) ∉
      recTrace 10 sampleA :=
  ⟨⟨by decide, by decide⟩,
    learned_never_presented sampleState ledgerB sampleCatalog sampleEvent 10 0
      (applyCommit sampleState 10 sampleA) (recTrace 10 sampleA) (by decide)
      (str "F6") (str "Focus next part") (by decide) (recMessage sampleB)⟩

/-- Witness for C5: in the concrete run's trace the presentation sits at
index 2, after both commits. -/
theorem commit_happens_before_present_witness :
    (analyzeInteraction sampleState emptyLedger sampleCatalog sampleEvent 10 0 =
        some (applyCommit sampleState 10 sampleA, recTrace 10 sampleA) ∧
      (recTrace 10 sampleA)[2]? =
        some (.present sampleA.shortcut sampleA.action (recMessage sampleA))) ∧
    ((∃ j, j < 2 ∧ (recTrace 10 sampleA)[j]? =
        some (.setLastRecommendationTime 10)) ∧
      (∃ k, k < 2 ∧ (recTrace 10 sampleA)[k]? =
        some (.addShown (keyOfPair sampleA.shortcut sampleA.action))) ∧
      (applyCommit sampleState 10 sampleA).lastRecommendationTime = 10 ∧
      keyOfPair sampleA.shortcut sampleA.action ∈
        (applyCommit sampleState 10 sampleA).shownShortcuts) :=
  ⟨⟨by decide, by decide⟩,
    commit_happens_before_present sampleState emptyLedger sampleCatalog
      sampleEvent 10 0 (applyCommit sampleState 10 sampleA)
      (recTrace 10 sampleA) (by decide) 2 sampleA.shortcut sampleA.action
      (recMessage sampleA) (by decide)⟩

/-- Witness for C6: the untitled context keeps `Ctrl+N`; the titled
context drops it and keeps `Ctrl+O` and `Ctrl+P`. -/
theorem editorChange_filter_correct_witness :
    (ctxUntitled.editor = true ∧ ctxUntitled.isUntitled = true ∧
      ctxUntitled.tabCountIncreased = true ∧ ctxOpenFile.editor = true ∧
      ctxOpenFile.isUntitled = false ∧ fileNameHasUntitled ctxOpenFile = false ∧
      ctxOpenFile.tabCountIncreased = true) ∧
    (filterActiveEditorChange [ctrlN]
        { type := .activeEditorChange, context := some ctxUntitled } = [ctrlN] ∧
      filterActiveEditorChange [ctrlN, ctrlO, ctrlP]
        { type := .activeEditorChange, context := some ctxOpenFile } =
        [ctrlO, ctrlP]) :=
  ⟨⟨by decide, by decide, by decide, by decide, by decide, by decide, by decide⟩,
    editorChange_filter_correct ctxUntitled ctxOpenFile (by decide) (by decide)
      (by decide) (by decide) (by decide) (by decide) (by decide)⟩

/-- Witness for C9: a context-free event with draw `0`. -/
theorem engine_total_on_any_context_witness :
    ((0 : ℚ) ≤ 0 ∧ (0 : ℚ) < 1) ∧
    ((filterByContext [sampleA] sampleEvent).Sublist [sampleA] ∧
      (analyzeInteraction sampleState emptyLedger sampleCatalog sampleEvent
        10 0).isSome = true) :=
  ⟨⟨by decide, by decide⟩,
    engine_total_on_any_context sampleEvent [sampleA] sampleState emptyLedger
      sampleCatalog 10 0 (by decide) (by decide)⟩

/-- Witness for C10: pipe-free identities round-trip and are injective. -/
theorem identity_roundtrip_witness :
    ('|' ∉ str "Ctrl+S" ∧ '|' ∉ str "save" ∧ '|' ∉ str "Ctrl+X" ∧
      '|' ∉ str "cut") ∧
    (decodeId (getShortcutId (str "Ctrl+S") (str "save")) =
        (str "Ctrl+S", str "save") ∧
      getLearnedShortcutsDetails
        (markAsLearned (newManager none) (str "Ctrl+S") (str "save")).1 =
        [(str "Ctrl+S", str "save")] ∧
      (getShortcutId (str "Ctrl+S") (str "save") =
          getShortcutId (str "Ctrl+X") (str "cut") →
        str "Ctrl+S" = str "Ctrl+X" ∧ str "save" = str "cut")) :=
  ⟨⟨by decide, by decide, by decide, by decide⟩,
    identity_roundtrip (str "Ctrl+S") (str "save") (str "Ctrl+X") (str "cut")
      (by decide) (by decide) (by decide) (by decide)⟩

end ShortcutsBuddy
